import Mathlib

/-!
Verification development for the auto-time-series repository.

Shallow embedding conventions:
* Timestamps are month indices (`ℤ`): a date `(year, month)` is represented by
  `year * 12 + month`, which is adequate because the code assumes regular
  monthly frequency (`freq='MS'`) and all date arithmetic in the source is the
  month-count formula `(e.year - s.year) * 12 + (e.month - s.month)`.
* Series values are rationals (`ℚ`).
* A pandas cell that may be `NaN` (from a shifted column or an index-aligned
  join) is an `Option ℚ`; pandas' skip-NaN sums and means become sums and
  means over the `some` entries.
* The wrapped statistical libraries (pmdarima, statsmodels, tbats) are
  external collaborators; their numeric outputs enter as the black-box
  functions of `Forecasters`.
-/

/-- One row of a predicted-vs-actual table: timestamp, actual value, and the
model's predicted value (`none` models a pandas `NaN` cell). -/
structure Row where
  ts : ℤ
  actual : ℚ
  pred : Option ℚ
deriving DecidableEq, Repr

/-- A predictions table as built by the `_fit_*` methods: a datetime-indexed
two-column frame of actuals and one model's predictions. -/
abbrev PredTable := List Row

/-- Embedding of `error_metrics.mase`.  Mirrors the pandas pipeline:
`shifted_actuals = actuals.shift(step_size)` (first `step_size` cells NaN),
`abs_shifted_error`, `abs_prediction_error`, the scale factor
`sum(non-NaN shifted errors) / (len(data) - step_size)`, and the final
`.mean()` over the non-NaN scaled errors. -/
def mase (actuals : List ℚ) (preds : List (Option ℚ)) (step_size : ℕ) : ℚ :=
  let n := actuals.length
  let shifted_actuals : List (Option ℚ) :=
    List.replicate step_size none ++ (actuals.take (n - step_size)).map some
  let abs_shifted_error : List (Option ℚ) :=
    List.zipWith (fun a s => s.map (fun sv => |a - sv|)) actuals shifted_actuals
  let avg_shifted_error : ℚ :=
    (abs_shifted_error.filterMap id).sum / ((n : ℚ) - (step_size : ℚ))
  let abs_prediction_error : List (Option ℚ) :=
    List.zipWith (fun a p => p.map (fun pv => |a - pv|)) actuals preds
  let abs_scaled_error : List (Option ℚ) :=
    abs_prediction_error.map (Option.map (fun e => e / avg_shifted_error))
  let defined := abs_scaled_error.filterMap id
  defined.sum / (defined.length : ℚ)

/-- Embedding of `AutoTS._error_metric`: dispatches on the configured metric
name; only `'mase'` has an implementation, every other branch of the source
falls through and returns `None`. -/
def error_metric_dispatch (metric : String) (t : PredTable) : Option ℚ :=
  if metric = "mase" then some (mase (t.map Row.actual) (t.map Row.pred) 1) else none

/-- The black-box outputs of the wrapped statistical libraries for one fit:
`aaInSample i` is pmdarima's `predict_in_sample` value at position `i` of the
series, `esPredAt i` is statsmodels' `predict` value at position `i`, and
`tbForecastAt j` is the `j`-th element of tbats' `forecast`. -/
structure Forecasters where
  aaInSample : ℕ → ℚ
  esPredAt : ℕ → ℚ
  tbForecastAt : ℕ → ℚ

/-- A candidate model as stored in `AutoTS.candidate_models`: the source uses
a positional list `[test_error, model, name, test_predictions]`; the opaque
fitted model object is omitted here (it never influences the verified
logic, which reads only score, name and table). `score` is an `Option`
because `_error_metric` returns `None` for unimplemented metrics. -/
structure Candidate where
  score : Option ℚ
  name : String
  table : PredTable
deriving DecidableEq, Repr

/-- Table built by `_fit_auto_arima(use_full_dataset=True)`: the frame
`{'actuals': model_data[series], 'aa_test_predictions': model.predict_in_sample(...)}`
where `model_data = self.data` is the FULL series, so the table has one row
per series timestamp. -/
def aaTable (series : List (ℤ × ℚ)) (F : Forecasters) : PredTable :=
  series.enum.map (fun p => { ts := p.2.1, actual := p.2.2, pred := some (F.aaInSample p.1) })

/-- Table built by `_fit_exponential_smoothing`: actuals are
`self.testing_data` (the last `holdout_period` rows) and predictions are
`model.predict(len(training), len(training) + holdout_period - 2)`, i.e. the
positions `n - h .. n - 2`.  Row `j` of the holdout (global position
`n - h + j`) therefore gets a prediction iff `n - h + j ≤ n - 2`, i.e.
`j + 2 ≤ h`; the final holdout row is NaN after index alignment. -/
def esTable (series : List (ℤ × ℚ)) (h : ℕ) (F : Forecasters) : PredTable :=
  let n := series.length
  (series.drop (n - h)).enum.map (fun p =>
    { ts := p.2.1, actual := p.2.2,
      pred := if p.1 + 2 ≤ h then some (F.esPredAt (n - h + p.1)) else none })

/-- Table built by `_fit_tbats`: actuals are `self.testing_data` and the
prediction column is `fitted_model.forecast(len(testing_data))`, a plain
array aligned positionally with the holdout rows. -/
def tbTable (series : List (ℤ × ℚ)) (h : ℕ) (F : Forecasters) : PredTable :=
  (series.drop (series.length - h)).enum.map (fun p =>
    { ts := p.2.1, actual := p.2.2, pred := some (F.tbForecastAt p.1) })

/-- `_fit_auto_arima`: returns `[test_error, model, 'auto_arima', test_predictions]`. -/
def fit_auto_arima (metric : String) (series : List (ℤ × ℚ)) (F : Forecasters) : Candidate :=
  { score := error_metric_dispatch metric (aaTable series F)
    name := "auto_arima"
    table := aaTable series F }

/-- `_fit_exponential_smoothing`: returns `[error, model, 'exponential_smoothing', test_predictions]`. -/
def fit_exponential_smoothing (metric : String) (series : List (ℤ × ℚ)) (h : ℕ)
    (F : Forecasters) : Candidate :=
  { score := error_metric_dispatch metric (esTable series h F)
    name := "exponential_smoothing"
    table := esTable series h F }

/-- `_fit_tbats`: returns `[error, fitted_model, 'tbats', test_predictions]`. -/
def fit_tbats (metric : String) (series : List (ℤ × ℚ)) (h : ℕ)
    (F : Forecasters) : Candidate :=
  { score := error_metric_dispatch metric (tbTable series h F)
    name := "tbats"
    table := tbTable series h F }

/-- The datetime index of a predictions table. -/
def indexOf (t : PredTable) : List ℤ := t.map Row.ts

/-- The index of the frame produced by `_fit_ensemble`'s
`reduce(pd.merge(..., left_index=True, right_index=True), model_predictions)`:
successive inner joins on the timestamp index keep, in left order, the
timestamps of the first table that occur in every other table (series
timestamps are pairwise distinct, so no cross-product duplication arises). -/
def mergeIndex : List PredTable → List ℤ
  | [] => []
  | t :: ts => (indexOf t).filter (fun x => ts.all (fun u => (indexOf u).contains x))

/-- The prediction a table holds at a timestamp (`none` when the row is
absent or its cell is NaN). -/
def predAt (t : PredTable) (x : ℤ) : Option ℚ :=
  (t.find? (fun r => decide (r.ts = x))).bind Row.pred

/-- The actual value a table holds at a timestamp (the merged frame keeps the
left-most table's `actuals` column; the others are dropped before merging). -/
def actualAt (t : PredTable) (x : ℤ) : ℚ :=
  ((t.find? (fun r => decide (r.ts = x))).map Row.actual).getD 0

/-- One row of the ensemble frame: `all_predictions[predictions_columns].mean(axis='columns')`
is pandas' skip-NaN row mean of the per-model prediction cells, NaN (`none`)
when every cell of the row is NaN. -/
def ensembleRow (tables : List PredTable) (x : ℤ) : Row :=
  let vals := tables.filterMap (fun t => predAt t x)
  { ts := x
    actual := actualAt (tables.headD []) x
    pred := if vals.length = 0 then none else some (vals.sum / (vals.length : ℚ)) }

/-- The frame `all_predictions[['actuals', 'en_test_predictions']]` returned
by `_fit_ensemble`. -/
def ensembleTable (tables : List PredTable) : PredTable :=
  (mergeIndex tables).map (ensembleRow tables)

/-- `_fit_ensemble`: returns `[error, None, 'ensemble', all_predictions[['actuals', 'en_test_predictions']]]`. -/
def fit_ensemble (metric : String) (tables : List PredTable) : Candidate :=
  { score := error_metric_dispatch metric (ensembleTable tables)
    name := "ensemble"
    table := ensembleTable tables }

/-- Errors raised by `validation.check_models` (the source raises
`TypeError`/`ValueError` with messages; here an enum).  The source's
`TypeError` for a non-list/non-tuple `models` argument is enforced by the
embedding's types and has no constructor. -/
inductive ConfigError
  | emptyModels
  | invalidModels
  | ensembleTooFew
deriving DecidableEq, Repr

/-- `validation.valid_models`. -/
def valid_models : List String := ["auto_arima", "exponential_smoothing", "tbats", "ensemble"]

/-- Embedding of `validation.check_models`: empty set, then unsupported
names, then `len(models) <= 2 and "ensemble" in models`. -/
def check_models (models : List String) : Option ConfigError :=
  if models.length = 0 then some ConfigError.emptyModels
  else if 0 < (models.filter (fun m => !(valid_models.contains m))).length then
    some ConfigError.invalidModels
  else if models.length ≤ 2 ∧ models.contains "ensemble" then some ConfigError.ensembleTooFew
  else none

/-- Python's `str.lower()`: Lean's `String.toLower` is implemented through a
non-structural `mapAux`, so this equivalent map over the character list is
used instead to keep the embedding computable by the kernel. -/
def strLower (s : String) : String := ⟨s.data.map Char.toLower⟩

/-- Fit-time error of `validation.check_datetime_index`. -/
inductive InputShapeError
  | notDatetimeIndex
deriving DecidableEq, Repr

/-- A dataframe index as seen by `check_datetime_index`: either a
`pd.DatetimeIndex` carrying its timestamps, or an index of any other type. -/
inductive DFIndex
  | datetime (ts : List ℤ)
  | nonDatetime
deriving DecidableEq, Repr

/-- Embedding of `validation.check_datetime_index`: the one and only check in
the source is `isinstance(series_df.index, pd.DatetimeIndex)`. -/
def check_datetime_index : DFIndex → Option InputShapeError
  | DFIndex.datetime _ => none
  | DFIndex.nonDatetime => some InputShapeError.notDatetimeIndex

/-- The `AutoTS` object state.  Fields the verified logic never reads are
omitted: `verbose`, `series_column_name` (the embedding receives the series
column already extracted as `(timestamp, value)` pairs), the
`training_data`/`testing_data` views (recomputed from `data` and
`holdout_period` where needed), and the mutable `fit_model` object slot. -/
structure AutoTS where
  model_names : List String
  error_metric : String
  is_seasonal : Bool
  seasonal_period : Option ℕ
  holdout_period : ℕ
  data : Option (List (ℤ × ℚ))
  exogenous : Option (List String)
  using_exogenous : Bool
  candidate_models : List Candidate
  fit_model_type : Option String
  best_model_error : Option ℚ
  is_fitted : Bool
deriving DecidableEq, Repr

/-- Embedding of `AutoTS.__init__`: runs `check_models`, lowercases the model
names and the error metric, derives `is_seasonal`, and initialises all
fitted state empty.  Note the source never validates `error_metric`. -/
def autoTS_init (model_names : List String) (error_metric : String)
    (seasonal_period : Option ℕ) (holdout_period : ℕ) : Except ConfigError AutoTS :=
  match check_models model_names with
  | some e => Except.error e
  | none =>
    Except.ok
      { model_names := model_names.map strLower
        error_metric := strLower error_metric
        is_seasonal := seasonal_period.isSome
        seasonal_period := seasonal_period
        holdout_period := holdout_period
        data := none
        exogenous := none
        using_exogenous := false
        candidate_models := []
        fit_model_type := none
        best_model_error := none
        is_fitted := false }

/-- The strict comparison used by `sorted(self.candidate_models, key=lambda x: x[0])`:
Python compares the float scores with `<`.  Comparing a `None` score (an
unimplemented metric) raises in Python; those branches return `false` here
and are outside every claim's scope (all claims run with `mase`). -/
def ltScore : Option ℚ → Option ℚ → Bool
  | some a, some b => decide (a < b)
  | _, _ => false

/-- Insert into a sorted-by-score list, placing the new element before every
element it is strictly smaller than and after earlier equal-scored elements
of the produced prefix. -/
def insertCand (c : Candidate) : List Candidate → List Candidate
  | [] => [c]
  | d :: ds => if ltScore d.score c.score then d :: insertCand c ds else c :: d :: ds

/-- A stable ascending sort by score.  Python's `sorted` is a stable
ascending sort by the key; a stable sort under a fixed key order is unique
as a function, so this insertion sort is extensionally `sorted(..., key=lambda x: x[0])`. -/
def sortByScore : List Candidate → List Candidate
  | [] => []
  | c :: cs => insertCand c (sortByScore cs)

/-- The `exogenous` parameter of `AutoTS.fit`: Python accepts `None`, a
single string, or a list of column names. -/
inductive ExogArg
  | noArg
  | str (s : String)
  | list (xs : List String)

/-- The non-ensemble candidates one `fit` call appends, in the source's
fixed evaluation order `auto_arima`, `exponential_smoothing`, `tbats`. -/
def nonEnsembleCands (a : AutoTS) (series : List (ℤ × ℚ)) (F : Forecasters) : List Candidate :=
  (if a.model_names.contains "auto_arima" then
    [fit_auto_arima a.error_metric series F] else []) ++
  (if a.model_names.contains "exponential_smoothing" then
    [fit_exponential_smoothing a.error_metric series a.holdout_period F] else []) ++
  (if a.model_names.contains "tbats" then
    [fit_tbats a.error_metric series a.holdout_period F] else [])

/-- The full candidate list a `fit` call sorts: the pre-existing
`self.candidate_models` (the source appends, it never clears) plus the new
non-ensemble candidates, plus — last, since it depends on the others — the
ensemble candidate built from the tables of everything appended so far. -/
def allCands (a : AutoTS) (series : List (ℤ × ℚ)) (F : Forecasters) : List Candidate :=
  let c3 := a.candidate_models ++ nonEnsembleCands a series F
  c3 ++ (if a.model_names.contains "ensemble" then
    [fit_ensemble a.error_metric (c3.map Candidate.table)] else [])

/-- Embedding of `AutoTS.fit`: normalises the `exogenous` argument (a bare
string is replaced by `[]`, and any non-`None` value sets
`using_exogenous`), stores the data, appends one candidate per configured
model, sorts by score, and publishes winner name, winner error and
`is_fitted`.  The dataframe-index type check (`check_datetime_index`) is
modelled separately on `DFIndex`. -/
def fit (a : AutoTS) (series : List (ℤ × ℚ)) (exogArg : ExogArg) (F : Forecasters) : AutoTS :=
  let exogList : Option (List String) :=
    match exogArg with
    | ExogArg.noArg => none
    | ExogArg.str _ => some []
    | ExogArg.list xs => some xs
  let sortedCands := sortByScore (allCands a series F)
  { a with
    data := some series
    using_exogenous := if exogList.isSome then true else a.using_exogenous
    exogenous := if exogList.isSome then exogList else a.exogenous
    candidate_models := sortedCands
    best_model_error := sortedCands.head?.bind Candidate.score
    fit_model_type := sortedCands.head?.map Candidate.name
    is_fitted := true }

/-- The three prediction paths of `_predict_auto_arima` / `_predict_tbats`,
with the data each path passes to the fitted model: the in-sample location
range, or the straddle's out-of-sample month count
`(end.year - last.year) * 12 + (end.month - last.month)`, or the fully
out-of-sample month count `... + 1`. -/
inductive RangeAction
  | inSample (startD endD : ℤ)
  | straddle (startD : ℤ) (extraMonths : ℤ)
  | outOfSample (nMonths : ℤ)
deriving DecidableEq, Repr

/-- Embedding of the branch structure of `_predict_auto_arima`:
`start_date < self.data.index[-1] and end_date <= self.data.index[-1]` picks
pure in-sample prediction, `start_date < self.data.index[-1] < end_date`
stitches in-sample (from `start_date` on) with
`predict(num_extra_months)`, and the remaining case calls
`predict(months_to_predict)` with both endpoints counted. -/
def predict_auto_arima_action (startD endD lastD : ℤ) : RangeAction :=
  if startD < lastD ∧ endD ≤ lastD then RangeAction.inSample startD endD
  else if startD < lastD ∧ lastD < endD then RangeAction.straddle startD (endD - lastD)
  else RangeAction.outOfSample (endD - startD + 1)

/-- Embedding of the branch structure of `_predict_tbats`: identical
three-way split; its first guard compares against
`in_sample_preds.index[-1]`, the last element of
`pd.date_range(self.data.index[0], self.data.index[-1], freq='MS')`, which
for the assumed month-start-indexed data is again `self.data.index[-1]`. -/
def predict_tbats_action (startD endD lastD : ℤ) : RangeAction :=
  if startD < lastD ∧ endD ≤ lastD then RangeAction.inSample startD endD
  else if startD < lastD ∧ lastD < endD then RangeAction.straddle startD (endD - lastD)
  else RangeAction.outOfSample (endD - startD + 1)

/-- The errors `AutoTS.predict` can raise during validation, in source
order.  The `TypeError` for non-datetime arguments is enforced by the
embedding's types. -/
inductive PredictError
  | notFitted
  | invertedRange
  | startTooLate
  | startTooEarly
  | missingExog
deriving DecidableEq, Repr

/-- Embedding of the validation prefix of `AutoTS.predict` (before any
dispatch): not fitted, `start_date > end_date`,
`start_date > last_data_date + relativedelta(months=+1)`,
`start_date < self.data.index[0]`, and finally the mandatory-exogenous
check `self.using_exogenous and last_data_date < end_date and exogenous is None`. -/
def predict_validation (fitted : Bool) (firstD lastD : ℤ) (usingExog : Bool)
    (startD endD : ℤ) (exogGiven : Bool) : Option PredictError :=
  if fitted = false then some PredictError.notFitted
  else if endD < startD then some PredictError.invertedRange
  else if lastD + 1 < startD then some PredictError.startTooLate
  else if startD < firstD then some PredictError.startTooEarly
  else if usingExog = true ∧ lastD < endD ∧ exogGiven = false then some PredictError.missingExog
  else none

/-- Specification-side predicate (from the spec's words, for claim C5):
the index is a strictly increasing sequence of timestamps. -/
def spec_strictly_increasing : List ℤ → Bool
  | [] => true
  | [_] => true
  | x :: y :: rest => decide (x < y) && spec_strictly_increasing (y :: rest)

/-- Specification-side selector (from the spec's words, for claim C9): the
first candidate, in evaluation order, attaining the minimal score — i.e.
the winner of a stable ascending sort. -/
def spec_first_min : List Candidate → Option Candidate
  | [] => none
  | c :: cs =>
    match spec_first_min cs with
    | none => some c
    | some d => if ltScore d.score c.score then some d else some c

/-- Specification-side count (from the spec's words, for claim C2): the
number of candidate models one `fit` call is supposed to produce, one per
configured model name. -/
def countConfigured (names : List String) : ℕ :=
  (if names.contains "auto_arima" then 1 else 0) +
  (if names.contains "exponential_smoothing" then 1 else 0) +
  (if names.contains "tbats" then 1 else 0) +
  (if names.contains "ensemble" then 1 else 0)

/-- Specification-side statement (from the spec's words, for claim C7): at
every timestamp of the merged holdout index, every non-ensemble candidate
has a predicted value and the ensemble's prediction is the arithmetic mean
of all of them. -/
def spec_c7_claim (tables : List PredTable) : Prop :=
  ∀ x ∈ mergeIndex tables, ∃ vs : List ℚ,
    tables.map (fun t => predAt t x) = vs.map some ∧
    predAt (ensembleTable tables) x = some (vs.sum / (vs.length : ℚ))

/-- An 8-point monthly series (month indices 0..7). -/
def exSeries8 : List (ℤ × ℚ) :=
  [(0, 1), (1, 2), (2, 3), (3, 4), (4, 5), (5, 6), (6, 7), (7, 8)]

/-- A 6-point monthly series. -/
def exSeries6 : List (ℤ × ℚ) := [(0, 1), (1, 2), (2, 4), (3, 8), (4, 16), (5, 32)]

/-- A concrete black-box forecaster bundle: auto_arima and
exponential_smoothing always predict 0, tbats always forecasts 6. -/
def exF : Forecasters :=
  { aaInSample := fun _ => 0, esPredAt := fun _ => 0, tbForecastAt := fun _ => 6 }

/-- The state `autoTS_init` produces for the single model
`exponential_smoothing` with the `mase` metric and `holdout_period = 4`. -/
def exAutoTS_es : AutoTS :=
  { model_names := ["exponential_smoothing"]
    error_metric := "mase"
    is_seasonal := false
    seasonal_period := none
    holdout_period := 4
    data := none
    exogenous := none
    using_exogenous := false
    candidate_models := []
    fit_model_type := none
    best_model_error := none
    is_fitted := false }

/-- A leftover candidate from a hypothetical earlier fit call. -/
def exOldCand : Candidate := { score := some 5, name := "old", table := [] }

/-- A fresh state configured with the three non-ensemble models. -/
def exAutoTS3 : AutoTS :=
  { exAutoTS_es with model_names := ["auto_arima", "exponential_smoothing", "tbats"] }

/-- The three non-ensemble candidate tables a fit with all models produces
on `exSeries6` with `holdout_period = 4` and the forecasters `exF`. -/
def exTables : List PredTable :=
  [aaTable exSeries6 exF, esTable exSeries6 4 exF, tbTable exSeries6 4 exF]

example : mase [1, 3, 6] [some 1, some 2, some 3] 1 = 8 / 15 := by
  norm_num [mase, List.filterMap_cons]

example :
    (aaTable [((0 : ℤ), (1 : ℚ)), (1, 2)] ⟨fun i => (i : ℚ), fun _ => 0, fun _ => 0⟩).map Row.pred
      = [some 0, some 1] := by
  norm_num [aaTable, List.enum]

lemma insertCand_length (c : Candidate) (l : List Candidate) :
    (insertCand c l).length = l.length + 1 := by
  induction l with
  | nil => rfl
  | cons d ds ih =>
    simp only [insertCand]
    split <;> simp [ih]

lemma sortByScore_length (l : List Candidate) : (sortByScore l).length = l.length := by
  induction l with
  | nil => rfl
  | cons c cs ih => simp [sortByScore, insertCand_length, ih]

lemma mem_insertCand {x c : Candidate} {l : List Candidate} :
    x ∈ insertCand c l ↔ x = c ∨ x ∈ l := by
  induction l with
  | nil => simp [insertCand]
  | cons d ds ih =>
    simp only [insertCand]
    split
    · simp only [List.mem_cons, ih]
      tauto
    · simp [List.mem_cons]

lemma mem_sortByScore {x : Candidate} {l : List Candidate} :
    x ∈ sortByScore l ↔ x ∈ l := by
  induction l with
  | nil => simp [sortByScore]
  | cons c cs ih => simp [sortByScore, mem_insertCand, ih]

lemma spec_first_min_eq_none {l : List Candidate} : spec_first_min l = none ↔ l = [] := by
  cases l with
  | nil => simp [spec_first_min]
  | cons c cs =>
    simp only [spec_first_min]
    cases spec_first_min cs with
    | none => simp
    | some d =>
      simp only []
      split <;> simp

lemma sortByScore_head (l : List Candidate) : (sortByScore l).head? = spec_first_min l := by
  induction l with
  | nil => rfl
  | cons c cs ih =>
    simp only [sortByScore, spec_first_min]
    cases h : sortByScore cs with
    | nil =>
      have hn : spec_first_min cs = none := by rw [← ih, h]; rfl
      rw [hn]
      rfl
    | cons d ds =>
      have hs : spec_first_min cs = some d := by rw [← ih, h]; rfl
      rw [hs]
      simp only [insertCand]
      split <;> rfl

lemma spec_first_min_spec :
    ∀ (l : List Candidate), (∀ x ∈ l, x.score.isSome = true) →
      ∀ c, spec_first_min l = some c →
        c ∈ l ∧ ∀ d ∈ l, ∀ q r, c.score = some q → d.score = some r → q ≤ r := by
  intro l
  induction l with
  | nil =>
    intro _ c hc
    simp [spec_first_min] at hc
  | cons a as ih =>
    intro hall c hc
    simp only [spec_first_min] at hc
    cases h : spec_first_min as with
    | none =>
      rw [h] at hc
      cases hc
      have has : as = [] := spec_first_min_eq_none.mp h
      subst has
      refine ⟨List.mem_cons_self _ _, ?_⟩
      intro d hd q r hq hr
      have hda : d = a := by simpa using hd
      subst hda
      rw [hq] at hr
      cases hr
      exact le_refl _
    | some m =>
      rw [h] at hc
      obtain ⟨hmem, hmin⟩ := ih (fun x hx => hall x (List.mem_cons_of_mem _ hx)) m h
      by_cases hlt : ltScore m.score a.score = true
      · simp only [hlt, if_true] at hc
        cases hc
        refine ⟨List.mem_cons_of_mem _ hmem, ?_⟩
        intro d hd q r hq hr
        rcases List.mem_cons.mp hd with hda | hdas
        · subst hda
          rw [hq, hr] at hlt
          simp only [ltScore, decide_eq_true_eq] at hlt
          exact le_of_lt hlt
        · exact hmin d hdas q r hq hr
      · simp only [hlt, Bool.false_eq_true, if_false] at hc
        cases hc
        refine ⟨List.mem_cons_self _ _, ?_⟩
        intro d hd q r hq hr
        rcases List.mem_cons.mp hd with hda | hdas
        · subst hda
          rw [hq] at hr
          cases hr
          exact le_refl _
        · have hm : m.score.isSome = true := hall m (List.mem_cons_of_mem _ hmem)
          obtain ⟨qm, hqm⟩ := Option.isSome_iff_exists.mp hm
          have h1 : qm ≤ r := hmin d hdas qm r hqm hr
          have h2 : q ≤ qm := by
            rw [hqm, hq] at hlt
            simp only [ltScore, decide_eq_true_eq] at hlt
            exact not_lt.mp hlt
          exact le_trans h2 h1

lemma allCands_score_shape {a : AutoTS} {series : List (ℤ × ℚ)} {F : Forecasters}
    (hfresh : a.candidate_models = []) :
    ∀ x ∈ allCands a series F, ∃ t, x.score = error_metric_dispatch a.error_metric t := by
  intro x hx
  simp only [allCands, nonEnsembleCands, hfresh, List.nil_append, List.mem_append,
    List.mem_ite_nil_right, List.mem_singleton] at hx
  rcases hx with ((⟨-, rfl⟩ | ⟨-, rfl⟩) | ⟨-, rfl⟩) | ⟨-, rfl⟩ <;> exact ⟨_, rfl⟩

lemma allCands_length (a : AutoTS) (series : List (ℤ × ℚ)) (F : Forecasters) :
    (allCands a series F).length = a.candidate_models.length + countConfigured a.model_names := by
  simp only [allCands, nonEnsembleCands, countConfigured, List.length_append]
  split_ifs <;> simp

lemma filterMap_id_map_some (xs : List ℚ) : (xs.map some).filterMap id = xs := by
  induction xs <;> simp [*]

lemma abs_pred_zip (as bs : List ℚ) :
    List.zipWith (fun a p => p.map (fun pv => |a - pv|)) as (bs.map some) =
      (List.zipWith (fun a b => |a - b|) as bs).map some := by
  induction as generalizing bs with
  | nil => simp
  | cons a as ih => cases bs <;> simp [ih]

lemma abs_zip_replicate_none :
    ∀ (as : List ℚ) (m : ℕ),
      (List.zipWith (fun a s => s.map (fun sv : ℚ => |a - sv|)) as
        (List.replicate m (none : Option ℚ))).filterMap id = [] := by
  intro as
  induction as with
  | nil => intro m; simp
  | cons a as ih =>
    intro m
    cases m with
    | zero => simp
    | succ m => simp [List.replicate_succ, ih]

lemma zipWith_sum_getD (f : ℚ → ℚ → ℚ) :
    ∀ (as bs : List ℚ), as.length = bs.length →
      (List.zipWith f as bs).sum = ∑ i in Finset.range as.length, f (as.getD i 0) (bs.getD i 0) := by
  intro as
  induction as with
  | nil => intro bs _; simp
  | cons a as ih =>
    intro bs hb
    cases bs with
    | nil => simp at hb
    | cons b bs =>
      simp only [List.zipWith_cons_cons, List.sum_cons, List.length_cons]
      rw [Finset.sum_range_succ']
      simp only [List.getD_cons_succ, List.getD_cons_zero]
      rw [ih bs (by simpa using hb)]
      ring

lemma filterMap_id_map_optionMap_some (g : ℚ → ℚ) (xs : List ℚ) :
    ((xs.map some).map (Option.map g)).filterMap id = xs.map g := by
  induction xs <;> simp [*]

/-- Claim C8: for a table of `N` rows of actual and predicted values with no
missing values and `N > step`, `mase` returns the mean over all `N` rows of
`|actual i - predicted i| / scaleFactor` where
`scaleFactor = (∑ i ≥ step, |actual i - actual (i - step)|) / (N - step)`;
the first `step` rows are included in the returned mean even though they
contribute nothing to the scale-factor sum. -/
theorem c8_mase_closed_form (actuals preds : List ℚ) (k : ℕ)
    (hk : k < actuals.length) (hlen : preds.length = actuals.length) :
    mase actuals (preds.map some) k =
      (∑ i in Finset.range actuals.length,
        |actuals.getD i 0 - preds.getD i 0| /
          ((∑ j in Finset.Ico k actuals.length,
            |actuals.getD j 0 - actuals.getD (j - k) 0|) /
            ((actuals.length : ℚ) - (k : ℚ)))) /
      (actuals.length : ℚ) := by
  have hk' : k ≤ actuals.length := le_of_lt hk
  have heq : List.zipWith (fun a s => s.map (fun sv => |a - sv|)) actuals
        (List.replicate k (none : Option ℚ) ++ (actuals.take (actuals.length - k)).map some) =
      List.zipWith (fun a s => s.map (fun sv => |a - sv|)) (actuals.take k ++ actuals.drop k)
        (List.replicate k (none : Option ℚ) ++ (actuals.take (actuals.length - k)).map some) := by
    rw [List.take_append_drop]
  have hshift : (List.zipWith (fun a s => s.map (fun sv => |a - sv|)) actuals
        (List.replicate k (none : Option ℚ) ++
          (actuals.take (actuals.length - k)).map some)).filterMap id =
      List.zipWith (fun a b => |a - b|) (actuals.drop k) (actuals.take (actuals.length - k)) := by
    rw [heq, List.zipWith_append _ _ _ _ _ (by simp [min_eq_left hk'])]
    rw [List.filterMap_append, abs_zip_replicate_none, abs_pred_zip, filterMap_id_map_some,
      List.nil_append]
  have hsum : (List.zipWith (fun a b => |a - b|) (actuals.drop k)
        (actuals.take (actuals.length - k))).sum =
      ∑ j in Finset.Ico k actuals.length, |actuals.getD j 0 - actuals.getD (j - k) 0| := by
    rw [zipWith_sum_getD _ _ _ (by simp)]
    rw [List.length_drop, Finset.sum_Ico_eq_sum_range]
    refine Finset.sum_congr rfl ?_
    intro i hi
    have hi' : i < actuals.length - k := Finset.mem_range.mp hi
    congr 1
    congr 1
    · rw [List.getD_eq_getElem?_getD, List.getElem?_drop, ← List.getD_eq_getElem?_getD]
    · rw [List.getD_eq_getElem?_getD, List.getElem?_take_of_lt hi', ← List.getD_eq_getElem?_getD,
        Nat.add_sub_cancel_left]
  simp only [mase]
  rw [hshift, hsum, abs_pred_zip, filterMap_id_map_optionMap_some, List.map_zipWith]
  rw [zipWith_sum_getD _ _ _ hlen.symm]
  simp only [List.length_zipWith, List.length_map, hlen, Nat.min_self]

/-- Witness for C8 at a concrete table: 3 rows, step 1. -/
theorem c8_mase_closed_form_witness :
    ((1 < ([1, 3, 6] : List ℚ).length) ∧
      ([1, 2, 3] : List ℚ).length = ([1, 3, 6] : List ℚ).length) ∧
    mase [1, 3, 6] (([1, 2, 3] : List ℚ).map some) 1 =
      (∑ i in Finset.range ([1, 3, 6] : List ℚ).length,
        |([1, 3, 6] : List ℚ).getD i 0 - ([1, 2, 3] : List ℚ).getD i 0| /
          ((∑ j in Finset.Ico 1 ([1, 3, 6] : List ℚ).length,
            |([1, 3, 6] : List ℚ).getD j 0 - ([1, 3, 6] : List ℚ).getD (j - 1) 0|) /
            ((([1, 3, 6] : List ℚ).length : ℚ) - ((1 : ℕ) : ℚ)))) /
      (([1, 3, 6] : List ℚ).length : ℚ) :=
  ⟨⟨by decide, by decide⟩, c8_mase_closed_form [1, 3, 6] [1, 2, 3] 1 (by decide) (by decide)⟩

/-- Claim C1 (the code at the failing input): with an 8-point series and
`holdout_period = 4`, `_fit_auto_arima(use_full_dataset=True)` builds its
scored table over the WHOLE series index (8 timestamps, not the last 4),
and `_fit_exponential_smoothing` builds a table over the last 4 timestamps
whose final row carries no prediction (its `model.predict` end position
`len(training) + holdout_period - 2` stops one short). -/
theorem c1_tables_eval :
    (aaTable exSeries8 exF).map Row.ts = [0, 1, 2, 3, 4, 5, 6, 7] ∧
    (esTable exSeries8 4 exF).map (fun r => (r.ts, r.pred.isSome)) =
      [(4, true), (5, true), (6, true), (7, false)] := by
  constructor
  · decide
  · decide

/-- Claim C2, counterexample: a freshly constructed instance configured with
exactly one model, fitted twice on the same series, ends with TWO
candidates in `candidate_models` — not "exactly one Candidate per model
name configured for that call": `fit` appends and never resets. -/
theorem c2_counterexample :
    autoTS_init ["exponential_smoothing"] "mase" none 4 = Except.ok exAutoTS_es ∧
    (fit (fit exAutoTS_es exSeries6 ExogArg.noArg exF) exSeries6
        ExogArg.noArg exF).candidate_models.length = 2 := by
  constructor
  · rfl
  · have h1 : (fit exAutoTS_es exSeries6 ExogArg.noArg exF).candidate_models.length = 1 := by
      show (sortByScore (allCands exAutoTS_es exSeries6 exF)).length = 1
      rw [sortByScore_length, allCands_length]
      rfl
    show (sortByScore (allCands (fit exAutoTS_es exSeries6 ExogArg.noArg exF) exSeries6
      exF)).length = 2
    rw [sortByScore_length, allCands_length, h1]
    rfl

/-- Claim C2 (amended): a successful `fit` call does NOT reset prior fitted
candidate state: it appends one new candidate per model name configured
(in the fixed order, the ensemble last) to whatever candidates earlier
`fit` calls left behind, and the sorted list it selects from contains all
of them. -/
theorem c2_fit_appends (a : AutoTS) (series : List (ℤ × ℚ)) (exog : ExogArg) (F : Forecasters) :
    (fit a series exog F).candidate_models.length =
      a.candidate_models.length + countConfigured a.model_names ∧
    ∀ c ∈ a.candidate_models, c ∈ (fit a series exog F).candidate_models := by
  constructor
  · show (sortByScore (allCands a series F)).length = _
    rw [sortByScore_length, allCands_length]
  · intro c hc
    show c ∈ sortByScore (allCands a series F)
    rw [mem_sortByScore]
    simp only [allCands, List.mem_append]
    exact Or.inl (Or.inl hc)

/-- Witness for the amended C2 on a state that already holds a candidate. -/
theorem c2_fit_appends_witness :
    (fit { exAutoTS_es with candidate_models := [exOldCand] } exSeries6 ExogArg.noArg
        exF).candidate_models.length =
      ({ exAutoTS_es with candidate_models := [exOldCand] } : AutoTS).candidate_models.length +
        countConfigured ({ exAutoTS_es with candidate_models := [exOldCand] } : AutoTS).model_names ∧
    exOldCand ∈ (fit { exAutoTS_es with candidate_models := [exOldCand] } exSeries6 ExogArg.noArg
        exF).candidate_models :=
  ⟨(c2_fit_appends _ _ _ _).1, (c2_fit_appends _ _ _ _).2 exOldCand (by decide)⟩

/-- Claim C9: after a first successful fit with the `mase` metric, the
selected model (`fit_model_type`, `best_model_error`) is the candidate the
stable ascending sort puts first: a candidate whose score is ≤ every other
candidate's score, and, among equal scores, the one appended first in the
fixed evaluation order auto_arima, exponential_smoothing, tbats, ensemble
(the order in which `allCands` builds the list). -/
theorem c9_selection (a : AutoTS) (series : List (ℤ × ℚ)) (exog : ExogArg) (F : Forecasters)
    (hmetric : a.error_metric = "mase") (hfresh : a.candidate_models = [])
    (hne : allCands a series F ≠ []) :
    ∃ c, spec_first_min (allCands a series F) = some c ∧
      (fit a series exog F).fit_model_type = some c.name ∧
      (fit a series exog F).best_model_error = c.score ∧
      c ∈ allCands a series F ∧
      ∀ d ∈ allCands a series F, ∀ q r, c.score = some q → d.score = some r → q ≤ r := by
  have hall : ∀ x ∈ allCands a series F, x.score.isSome = true := by
    intro x hx
    obtain ⟨t, ht⟩ := allCands_score_shape hfresh x hx
    rw [ht, hmetric]
    simp [error_metric_dispatch]
  cases hfm : spec_first_min (allCands a series F) with
  | none => exact absurd (spec_first_min_eq_none.mp hfm) hne
  | some c =>
    obtain ⟨hmem, hmin⟩ := spec_first_min_spec _ hall c hfm
    refine ⟨c, rfl, ?_, ?_, hmem, hmin⟩
    · show (sortByScore (allCands a series F)).head?.map Candidate.name = some c.name
      rw [sortByScore_head, hfm]
      rfl
    · show (sortByScore (allCands a series F)).head?.bind Candidate.score = c.score
      rw [sortByScore_head, hfm]
      rfl

/-- Witness for C9 at a concrete fitted instance. -/
theorem c9_selection_witness :
    (exAutoTS3.error_metric = "mase" ∧ exAutoTS3.candidate_models = [] ∧
      allCands exAutoTS3 exSeries6 exF ≠ []) ∧
    (∃ c, spec_first_min (allCands exAutoTS3 exSeries6 exF) = some c ∧
      (fit exAutoTS3 exSeries6 ExogArg.noArg exF).fit_model_type = some c.name ∧
      (fit exAutoTS3 exSeries6 ExogArg.noArg exF).best_model_error = c.score ∧
      c ∈ allCands exAutoTS3 exSeries6 exF ∧
      ∀ d ∈ allCands exAutoTS3 exSeries6 exF, ∀ q r,
        c.score = some q → d.score = some r → q ≤ r) :=
  ⟨⟨rfl, rfl, by decide⟩,
    c9_selection exAutoTS3 exSeries6 ExogArg.noArg exF rfl rfl (by decide)⟩

/-- Claim C3: the range classification of the fitted-model prediction paths
is exactly: in-sample iff `startDate < lastObservedDate` and
`endDate ≤ lastObservedDate`; straddling (in-sample part stitched with
`endDate - lastObservedDate` out-of-sample months) iff
`startDate < lastObservedDate < endDate`; otherwise fully out-of-sample
with `endDate - startDate + 1` months, both endpoints counted — and the
tbats dispatcher classifies identically to the auto-ARIMA one. -/
theorem c3_range_classification (s e l : ℤ) :
    ((predict_auto_arima_action s e l = RangeAction.inSample s e) ↔ (s < l ∧ e ≤ l)) ∧
    ((predict_auto_arima_action s e l = RangeAction.straddle s (e - l)) ↔ (s < l ∧ l < e)) ∧
    ((predict_auto_arima_action s e l = RangeAction.outOfSample (e - s + 1)) ↔
      (¬(s < l ∧ e ≤ l) ∧ ¬(s < l ∧ l < e))) ∧
    predict_tbats_action s e l = predict_auto_arima_action s e l := by
  refine ⟨?_, ?_, ?_, by unfold predict_tbats_action predict_auto_arima_action; rfl⟩ <;>
    unfold predict_auto_arima_action <;>
    split_ifs <;> simp_all

/-- Claim C4: the validation prefix of `predict` raises an error exactly
when: not fitted, inverted date range, start before the first observed
date, start more than one month past the last observed date, or exogenous
regressors were declared at fit time, the end date is beyond the last
observed date, and no exogenous values are supplied; under the negation of
all five, no validation error is raised. -/
theorem c4_predict_validation_iff (fitted : Bool) (firstD lastD : ℤ) (usingExog : Bool)
    (startD endD : ℤ) (exogGiven : Bool) :
    (predict_validation fitted firstD lastD usingExog startD endD exogGiven).isSome = true ↔
      (fitted = false ∨ endD < startD ∨ startD < firstD ∨ lastD + 1 < startD ∨
        (usingExog = true ∧ lastD < endD ∧ exogGiven = false)) := by
  unfold predict_validation
  split_ifs <;> simp_all

/-- Claim C5, counterexample: a datetime index that is NOT strictly
increasing passes `check_datetime_index` with no error — the source checks
only `isinstance(series_df.index, pd.DatetimeIndex)`, never the order. -/
theorem c5_counterexample :
    spec_strictly_increasing [1, 0] = false ∧
    check_datetime_index (DFIndex.datetime [1, 0]) = none := by
  decide

/-- Claim C5 (amended): the index validation `fit` runs first
(`check_datetime_index`) raises a type error iff the dataframe's index is
not a datetime index; chronological order is not checked, so a
non-increasing datetime index is accepted. -/
theorem c5_index_check (idx : DFIndex) :
    check_datetime_index idx = none ↔ ∃ ts, idx = DFIndex.datetime ts := by
  cases idx <;> simp [check_datetime_index]

/-- Claim C6, counterexample: construction with the unimplemented error
metric `mse` succeeds — `__init__` never validates `error_metric`; the
metric's unimplementedness surfaces only later, in `_error_metric`
returning nothing. -/
theorem c6_counterexample :
    (autoTS_init ["auto_arima", "tbats"] "mse" none 4).isOk = true ∧
    error_metric_dispatch "mse" [] = none := by
  constructor
  · rfl
  · rfl

/-- Claim C6 (amended): construction raises a configuration error exactly
when the model set is empty, contains an unsupported name, or requests
ensemble together with fewer than 2 other models; the error metric is not
validated at construction, so any metric string — supported or not — is
accepted. -/
theorem c6_init_errors_iff (models : List String) (metric : String) (sp : Option ℕ) (hp : ℕ) :
    (autoTS_init models metric sp hp).isOk = false ↔
      (models = [] ∨ (∃ m ∈ models, m ∉ valid_models) ∨
        (models.length ≤ 2 ∧ "ensemble" ∈ models)) := by
  have hinv : (0 < (models.filter (fun m => !(valid_models.contains m))).length) ↔
      (∃ m ∈ models, m ∉ valid_models) := by
    rw [List.length_pos, Ne, List.filter_eq_nil_iff]
    push_neg
    simp only [Bool.not_eq_true', Bool.not_eq_false, List.elem_iff]
    constructor
    · rintro ⟨m, hm, hnc⟩
      exact ⟨m, hm, by simpa [List.elem_iff] using hnc⟩
    · rintro ⟨m, hm, hnc⟩
      exact ⟨m, hm, by simpa [List.elem_iff] using hnc⟩
  unfold autoTS_init check_models
  split_ifs with h1 h2 h3
  · simp only [List.length_eq_zero] at h1
    simp [Except.isOk, Except.toBool, h1]
  · simp only [hinv] at h2
    simp [Except.isOk, Except.toBool, h2]
  · simp only [List.contains, List.elem_iff] at h3
    simp [Except.isOk, Except.toBool, h3]
  · simp only [List.length_eq_zero] at h1
    simp only [hinv] at h2
    simp only [not_and_or, List.contains, List.elem_iff] at h3
    simp only [Except.isOk, Except.toBool]
    constructor
    · intro h
      exact absurd h (by decide)
    · intro h
      rcases h with h | h | h
      · exact absurd h h1
      · exact absurd h h2
      · rcases h3 with h3 | h3
        · exact absurd h.1 h3
        · exact absurd h.2 h3

lemma find?_eq_self_of_mem : ∀ {l : List ℤ} {x : ℤ}, x ∈ l →
    l.find? (fun y => decide (y = x)) = some x := by
  intro l
  induction l with
  | nil =>
    intro x hx
    simp at hx
  | cons a as ih =>
    intro x hx
    by_cases hax : a = x
    · subst hax
      rw [List.find?_cons_of_pos _ (by simp)]
    · rw [List.find?_cons_of_neg _ (by simp [hax])]
      refine ih ?_
      rcases List.mem_cons.mp hx with h | h
      · exact absurd h.symm hax
      · exact h

/-- Claim C7 (amended): at every timestamp of the merged holdout index the
ensemble's prediction is the arithmetic mean of the prediction values the
non-ensemble candidates actually carry there (pandas' skip-NaN row mean);
when every candidate has a prediction at the timestamp this is the mean of
all of them, but a missing cell — as exponential_smoothing's final holdout
prediction always is — is silently excluded from the mean. -/
theorem c7_ensemble_mean (tables : List PredTable) (x : ℤ)
    (hx : x ∈ mergeIndex tables)
    (hvals : tables.filterMap (fun t => predAt t x) ≠ []) :
    predAt (ensembleTable tables) x =
      some ((tables.filterMap (fun t => predAt t x)).sum /
        ((tables.filterMap (fun t => predAt t x)).length : ℚ)) := by
  have hcomp : ((fun r => decide (r.ts = x)) ∘ ensembleRow tables) =
      fun y => decide (y = x) := by
    funext y
    rfl
  have hrow : (ensembleTable tables).find? (fun r => decide (r.ts = x)) =
      some (ensembleRow tables x) := by
    show ((mergeIndex tables).map (ensembleRow tables)).find? (fun r => decide (r.ts = x)) = _
    rw [List.find?_map, hcomp, find?_eq_self_of_mem hx]
    rfl
  show ((ensembleTable tables).find? (fun r => decide (r.ts = x))).bind Row.pred = _
  rw [hrow]
  show (ensembleRow tables x).pred = _
  show (if (tables.filterMap (fun t => predAt t x)).length = 0 then none
    else some ((tables.filterMap (fun t => predAt t x)).sum /
      ((tables.filterMap (fun t => predAt t x)).length : ℚ))) = _
  rw [if_neg (fun h => hvals (List.length_eq_zero.mp h))]

/-- Witness for the amended C7 at timestamp 2 of the concrete tables. -/
theorem c7_ensemble_mean_witness :
    ((2 : ℤ) ∈ mergeIndex exTables ∧
      exTables.filterMap (fun t => predAt t 2) ≠ []) ∧
    predAt (ensembleTable exTables) 2 =
      some ((exTables.filterMap (fun t => predAt t 2)).sum /
        ((exTables.filterMap (fun t => predAt t 2)).length : ℚ)) :=
  ⟨⟨by decide, by decide⟩, c7_ensemble_mean exTables 2 (by decide) (by decide)⟩

/-- Claim C7, counterexample: at the final holdout timestamp (month 5) the
exponential_smoothing candidate has NO predicted value (its table's last
prediction cell is NaN), so the ensemble value there is not the mean of
all candidates' predictions — the claim fails for every fit that includes
exponential_smoothing. -/
theorem c7_counterexample : ¬ spec_c7_claim exTables := by
  intro h
  obtain ⟨vs, hmap, hmean⟩ := h 5 (by decide)
  have h5 : exTables.map (fun t => predAt t 5) = [some 0, none, some 6] := by decide
  rw [h5] at hmap
  rcases vs with _ | ⟨v0, _ | ⟨v1, vs⟩⟩ <;> simp at hmap

/-- Claim C10: when `fit` receives a single column name as a string for
`exogenous`, the source replaces the string by an EMPTY list — so no
column at all is used as an exogenous regressor — yet `using_exogenous` is
still set, so `predict` demands exogenous data for any request reaching
past the last observed date. -/
theorem c10_exogenous_string (a : AutoTS) (series : List (ℤ × ℚ)) (s : String) (F : Forecasters)
    (firstD lastD startD endD : ℤ)
    (h1 : startD ≤ endD) (h2 : startD ≤ lastD + 1) (h3 : firstD ≤ startD) (h4 : lastD < endD) :
    (fit a series (ExogArg.str s) F).exogenous = some [] ∧
    (fit a series (ExogArg.str s) F).using_exogenous = true ∧
    predict_validation (fit a series (ExogArg.str s) F).is_fitted firstD lastD
      (fit a series (ExogArg.str s) F).using_exogenous startD endD false =
      some PredictError.missingExog := by
  refine ⟨rfl, rfl, ?_⟩
  show predict_validation true firstD lastD true startD endD false = some PredictError.missingExog
  unfold predict_validation
  rw [if_neg (by simp), if_neg (by omega), if_neg (by omega), if_neg (by omega),
    if_pos ⟨rfl, h4, rfl⟩]

/-- Witness for C10 at a concrete fit and out-of-sample request. -/
theorem c10_exogenous_string_witness :
    ((0 : ℤ) ≤ 6 ∧ (0 : ℤ) ≤ 5 + 1 ∧ (0 : ℤ) ≤ 0 ∧ (5 : ℤ) < 6) ∧
    ((fit exAutoTS_es exSeries6 (ExogArg.str "weather") exF).exogenous = some [] ∧
      (fit exAutoTS_es exSeries6 (ExogArg.str "weather") exF).using_exogenous = true ∧
      predict_validation (fit exAutoTS_es exSeries6 (ExogArg.str "weather") exF).is_fitted 0 5
        (fit exAutoTS_es exSeries6 (ExogArg.str "weather") exF).using_exogenous 0 6 false =
        some PredictError.missingExog) :=
  ⟨⟨by decide, by decide, by decide, by decide⟩,
    c10_exogenous_string exAutoTS_es exSeries6 "weather" exF 0 5 0 6
      (by decide) (by decide) (by decide) (by decide)⟩
